import Mathlib

/-!
Shallow embedding of the conversational-widget frontend logic
(`frontend/app.js`): the response-formatting pipeline (`formatResponse`,
`linkify`, the phone/time highlighting and keyword annotation regex
replacements), the turn-submission operation (`chiedi`) modelled as a
state transition emitting an ordered event trace, the bounded history
update, and the voice-capture activation (`attivaVoce`).

Regex replacement (`String.prototype.replace` with a global regex) is
modelled as a left-to-right scan over the character list: at each
position the leftmost match is found by trying the regex's backtracking
alternatives in the engine's preference order; the match is replaced and
scanning resumes after the match (replacement text is not rescanned in
the same pass), exactly as the JavaScript engine does.
-/

namespace Chatbot

/-- JavaScript's `\s` character class (also the set stripped by
`String.prototype.trim`): ASCII whitespace, NBSP, Ogham space mark,
the U+2000–U+200A range, line/paragraph separators, narrow NBSP,
medium mathematical space, ideographic space, and the BOM. -/
def isJsWhitespace (c : Char) : Bool :=
  let n := c.toNat
  n = 0x9 || n = 0xA || n = 0xB || n = 0xC || n = 0xD || n = 0x20 ||
  n = 0xA0 || n = 0x1680 || (0x2000 ≤ n && n ≤ 0x200A) ||
  n = 0x2028 || n = 0x2029 || n = 0x202F || n = 0x205F ||
  n = 0x3000 || n = 0xFEFF

/-- `String.prototype.trim`: strip leading and trailing JS whitespace. -/
def jsTrim (s : String) : String :=
  ⟨((s.toList.dropWhile isJsWhitespace).reverse.dropWhile isJsWhitespace).reverse⟩

/-- Take exactly `n` characters satisfying `p` from the front of `l`,
returning the taken prefix and the remainder (models an exact-count
regex quantifier repetition). -/
def takeCount (p : Char → Bool) : Nat → List Char → Option (List Char × List Char)
  | 0, l => some ([], l)
  | _ + 1, [] => none
  | n + 1, c :: rest =>
    if p c then (takeCount p n rest).map (fun pr => (c :: pr.1, pr.2)) else none

/-- First `some` result of `f` over a list (models trying regex
backtracking alternatives in preference order). -/
def firstSome {α β : Type} (f : α → Option β) : List α → Option β
  | [] => none
  | x :: xs =>
    match f x with
    | some y => some y
    | none => firstSome f xs

/-- One global-regex replacement pass: at each position try the matcher;
on a match emit `render` of the matched text and resume after the match
(the emitted replacement is not rescanned), otherwise copy one character.
`fuel` is an upper bound on the number of scan steps (the input length
suffices, since every matcher consumes at least one character). -/
def replScan (matchAt : List Char → Option (List Char × List Char))
    (render : List Char → List Char) : Nat → List Char → List Char
  | 0, l => l
  | _ + 1, [] => []
  | fuel + 1, c :: rest =>
    match matchAt (c :: rest) with
    | some (m, r) => render m ++ replScan matchAt render fuel r
    | none => c :: replScan matchAt render fuel rest

/-- Run a replacement pass over a whole character list. -/
def runReplace (matchAt : List Char → Option (List Char × List Char))
    (render : List Char → List Char) (l : List Char) : List Char :=
  replScan matchAt render l.length l

/-! ### linkify: `text.replace(/(https?:\/\/[^\s<>]+)/g, url => ...)` -/

/-- A character matched by `[^\s<>]`. -/
def isUrlChar (c : Char) : Bool :=
  !(isJsWhitespace c) && c ≠ '<' && c ≠ '>'

/-- Match `https?:\/\/` at the head of `l` (the `s?` quantifier is
greedy: `https://` is preferred over `http://`). -/
def matchScheme : List Char → Option (List Char × List Char)
  | 'h' :: 't' :: 't' :: 'p' :: 's' :: ':' :: '/' :: '/' :: r =>
    some (['h', 't', 't', 'p', 's', ':', '/', '/'], r)
  | 'h' :: 't' :: 't' :: 'p' :: ':' :: '/' :: '/' :: r =>
    some (['h', 't', 't', 'p', ':', '/', '/'], r)
  | _ => none

/-- Match the full URL regex `https?:\/\/[^\s<>]+` at the head of `l`:
the scheme followed by the maximal (greedy) nonempty run of URL
characters. -/
def matchUrlAt (l : List Char) : Option (List Char × List Char) :=
  match matchScheme l with
  | none => none
  | some (scheme, r) =>
    match r.takeWhile isUrlChar with
    | [] => none
    | b :: bs => some (scheme ++ (b :: bs), r.dropWhile isUrlChar)

/-- A character of the trailing-punctuation class `[.,!?)]`. -/
def isTrailPunct (c : Char) : Bool :=
  c = '.' || c = ',' || c = '!' || c = '?' || c = ')'

/-- `url.replace(/[.,!?)]*$/, '')`: strip the maximal trailing run of
punctuation characters. -/
def cleanUrl (url : List Char) : List Char :=
  ((url.reverse).dropWhile isTrailPunct).reverse

/-- The anchor markup emitted for one matched URL: the whole match is
replaced by an `<a>` element whose href and visible text are both the
cleaned URL. -/
def renderAnchor (url : List Char) : List Char :=
  let cu := cleanUrl url
  ("<a href=\"").toList ++ cu ++
  ("\" target=\"_blank\" class=\"text-blue-600 underline hover:text-blue-700\">").toList ++
  cu ++ ("</a>").toList

/-- `linkify` on character lists. -/
def linkifyL (l : List Char) : List Char :=
  runReplace matchUrlAt renderAnchor l

/-- `linkify(text)`. -/
def linkify (s : String) : String :=
  ⟨linkifyL s.toList⟩

/-! ### Phone highlighting:
`text.replace(/(\d{3,4}\s?\d{3,4}\s?\d{3,4})/g, '<span ...>$1</span>')` -/

/-- Match one backtracking alternative of the phone regex: exactly `a`
digits, `s1` whitespace characters, `b` digits, `s2` whitespace
characters, `c` digits. -/
def matchPhoneCombo (a s1 b s2 c : Nat) (l : List Char) :
    Option (List Char × List Char) := do
  let (d1, l1) ← takeCount Char.isDigit a l
  let (w1, l2) ← takeCount isJsWhitespace s1 l1
  let (d2, l3) ← takeCount Char.isDigit b l2
  let (w2, l4) ← takeCount isJsWhitespace s2 l3
  let (d3, l5) ← takeCount Char.isDigit c l4
  pure (d1 ++ w1 ++ d2 ++ w2 ++ d3, l5)

/-- The backtracking alternatives of `\d{3,4}\s?\d{3,4}\s?\d{3,4}` in the
engine's preference order (each greedy quantifier tries its maximum
first; the rightmost choice point backtracks first, i.e. lexicographic
descent). -/
def phoneCombos : List (Nat × Nat × Nat × Nat × Nat) :=
  [4, 3].flatMap fun a => [1, 0].flatMap fun s1 => [4, 3].flatMap fun b =>
    [1, 0].flatMap fun s2 => [4, 3].map fun c => (a, s1, b, s2, c)

/-- Match the phone regex at the head of `l`: first alternative that
succeeds, in preference order. -/
def matchPhoneAt (l : List Char) : Option (List Char × List Char) :=
  firstSome (fun t => matchPhoneCombo t.1 t.2.1 t.2.2.1 t.2.2.2.1 t.2.2.2.2 l)
    phoneCombos

/-- Replacement markup for a highlighted phone group (`$1` = the match). -/
def renderPhoneSpan (m : List Char) : List Char :=
  ("<span class=\"font-semibold text-blue-600\">").toList ++ m ++ ("</span>").toList

/-- The phone-highlighting pass on character lists. -/
def highlightPhonesL (l : List Char) : List Char :=
  runReplace matchPhoneAt renderPhoneSpan l

/-! ### Time highlighting: `text.replace(/(\d{1,2}:\d{2})/g, ...)` -/

/-- Match one alternative of the time regex: exactly `d` digits, a
colon, exactly two digits. -/
def matchTimeCombo (d : Nat) (l : List Char) : Option (List Char × List Char) := do
  let (d1, l1) ← takeCount Char.isDigit d l
  match l1 with
  | ':' :: l2 => do
    let (d2, l3) ← takeCount Char.isDigit 2 l2
    pure (d1 ++ ':' :: d2, l3)
  | _ => none

/-- Match `\d{1,2}:\d{2}` at the head of `l` (greedy: two leading digits
preferred over one). -/
def matchTimeAt (l : List Char) : Option (List Char × List Char) :=
  firstSome (fun d => matchTimeCombo d l) [2, 1]

/-- Replacement markup for a highlighted time (`$1` = the match). -/
def renderTimeSpan (m : List Char) : List Char :=
  ("<span class=\"font-semibold\">").toList ++ m ++ ("</span>").toList

/-- The time-highlighting pass on character lists. -/
def highlightTimesL (l : List Char) : List Char :=
  runReplace matchTimeAt renderTimeSpan l

/-! ### Keyword annotation:
`text.replace(/pronto soccorso/gi, '🚨 Pronto Soccorso')` and
`text.replace(/CUP/g, '📞 CUP')` -/

/-- Match a literal pattern case-insensitively (the `i` flag; ASCII
folding) at the head of `l`. -/
def matchCaseInsensitive (pat : List Char) (l : List Char) :
    Option (List Char × List Char) :=
  match pat, l with
  | [], r => some ([], r)
  | _ :: _, [] => none
  | p :: ps, c :: cs =>
    if c.toLower = p.toLower then
      (matchCaseInsensitive ps cs).map (fun pr => (c :: pr.1, pr.2))
    else none

/-- Match a literal pattern case-sensitively at the head of `l`. -/
def matchCaseSensitive (pat : List Char) (l : List Char) :
    Option (List Char × List Char) :=
  match pat, l with
  | [], r => some ([], r)
  | _ :: _, [] => none
  | p :: ps, c :: cs =>
    if c = p then
      (matchCaseSensitive ps cs).map (fun pr => (c :: pr.1, pr.2))
    else none

/-- The `pronto soccorso` annotation pass (case-insensitive). -/
def annotateProntoSoccorsoL (l : List Char) : List Char :=
  runReplace (matchCaseInsensitive ("pronto soccorso").toList)
    (fun _ => ("🚨 Pronto Soccorso").toList) l

/-- The `CUP` annotation pass (case-sensitive: no `i` flag in the
source). -/
def annotateCUPL (l : List Char) : List Char :=
  runReplace (matchCaseSensitive ("CUP").toList)
    (fun _ => ("📞 CUP").toList) l

/-- `formatResponse(text)`: the four passes in source order — linkify,
phone highlighting, time highlighting, keyword annotation. -/
def formatResponseL (l : List Char) : List Char :=
  annotateCUPL (annotateProntoSoccorsoL (highlightTimesL (highlightPhonesL (linkifyL l))))

/-- `formatResponse(text)` on strings. -/
def formatResponse (s : String) : String :=
  ⟨formatResponseL s.toList⟩

/-- Substring occurrence test (used to state where markup landed). -/
def occursSub (pat : List Char) : List Char → Bool
  | [] => pat.isEmpty
  | c :: rest => pat.isPrefixOf (c :: rest) || occursSub pat rest

/-! ### Turn submission (`chiedi`) -/

/-- One history entry: `{ utente, ai, timestamp }` as pushed by `chiedi`. -/
structure Turn where
  utente : String
  ai : String
  timestamp : String
deriving Repr, DecidableEq

/-- The reply payload `data` parsed from the server response. The source
reads `risposta`, `intent`, `suggerimenti`, `tempo_risposta` and
`cached`; `tempo_risposta` is a float in the source, modelled here by an
optional number whose only observed uses are JS truthiness and display. -/
structure ReplyPayload where
  risposta : String
  intent : Option String
  suggerimenti : List String
  tempo_risposta : Option Nat
  cached : Bool
deriving Repr, DecidableEq

/-- The mutable frontend state touched by `chiedi`: the session history
`storicoDomande`, the `#domanda` input field value, the voice-output
flag and the session id. -/
structure ChatState where
  storicoDomande : List Turn
  domandaValue : String
  voiceEnabled : Bool
  sessionId : String
deriving Repr, DecidableEq

/-- Observable side effects of one `chiedi` call, in program order
(DOM scrolling and focus are omitted; each render/DOM mutation and the
network request are events). -/
inductive Ev where
  | showNote (message : String) (type : String)
  | hideSuggestions
  | renderUser (text : String)
  | showTyping
  | showStatus (message : String)
  | networkRequest (question : String) (history : List Turn) (session_id : String)
  | logError
  | removeTyping
  | hideStatus
  | renderAI (html : String)
  | showSuggestionsOf (suggerimenti : List String)
  | showMetrics
  | speak (text : String)
  | clearInput
  | logAnalytics
  | renderError (html : String)
deriving Repr, DecidableEq

/-- Outcome of the `fetch` to `/api/ask` from the caller's viewpoint:
a parsed 2xx reply, or any failure (network unreachable, non-2xx status
— thrown at `if (!response.ok)` — or a malformed payload thrown by
`response.json()`); every failure lands in the same `catch` block. -/
inductive NetOutcome where
  | success (data : ReplyPayload)
  | failure
deriving Repr, DecidableEq

/-- `getIntentLabel(intent)`: fixed label table with fallthrough. -/
def getIntentLabel (intent : String) : String :=
  if intent = "orari" then "🕐 Orari"
  else if intent = "servizi" then "🏥 Servizi"
  else if intent = "prenotazione" then "📅 Prenotazione"
  else if intent = "contatti" then "📞 Contatti"
  else if intent = "posizione" then "📍 Posizione"
  else if intent = "emergenza" then "🚨 Emergenza"
  else if intent = "analisi" then "💉 Analisi"
  else if intent = "documenti" then "📄 Documenti"
  else if intent = "costi" then "💰 Costi"
  else if intent = "accessibilita" then "♿ Accessibilità"
  else intent

/-- The HTML body built by `createAIMessage`: the formatted reply,
prefixed by an intent badge when `data.intent` is present and not
`'generale'` (the appended feedback buttons are fixed markup, omitted). -/
def createAIMessageHtml (data : ReplyPayload) : String :=
  let formatted := formatResponse data.risposta
  match data.intent with
  | some i =>
    if i ≠ "generale" then
      "<span class=\"inline-block px-2 py-1 bg-blue-100 text-blue-700 text-xs rounded-full mb-2\">"
        ++ getIntentLabel i ++ "</span><br>" ++ formatted
    else formatted
  | none => formatted

/-- The fallback error message rendered in the `catch` block (markup of
the two paragraphs, including the human-contact instruction). -/
def erroreHtml : String :=
  "<p class=\"font-semibold\">⚠️ Errore di connessione</p>" ++
  "<p class=\"text-sm mt-1\">Non riesco a contattare il server. " ++
  "Riprova tra poco o chiama il centralino: 045 807 1111</p>"

/-- The history update on a successful turn: push the new entry, then
`if (storicoDomande.length > 10) storicoDomande.shift()`. -/
def historyPush (h : List Turn) (t : Turn) : List Turn :=
  let h' := h ++ [t]
  if h'.length > 10 then h'.tail else h'

/-- `chiedi()` as a state transition. `now` is the value of
`new Date().toISOString()` at this call; `outcome` is the environment's
resolution of the network request. Returns the new state and the event
trace in program order. -/
def chiedi (st : ChatState) (now : String) (outcome : NetOutcome) :
    ChatState × List Ev :=
  let domanda := jsTrim st.domandaValue
  if domanda = "" then
    (st, [.showNote "Per favore, scrivi una domanda" "warning"])
  else
    let preEvents : List Ev :=
      [.hideSuggestions, .renderUser domanda, .showTyping,
       .showStatus "Sto elaborando la tua richiesta...",
       .networkRequest domanda st.storicoDomande st.sessionId]
    match outcome with
    | .success data =>
      let newHist := historyPush st.storicoDomande
        ⟨domanda, data.risposta, now⟩
      let postEvents : List Ev :=
        [.removeTyping, .hideStatus, .renderAI (createAIMessageHtml data)]
        ++ (if data.suggerimenti ≠ [] then [.showSuggestionsOf data.suggerimenti] else [])
        ++ (match data.tempo_risposta with
            | some t => if t ≠ 0 then [.showMetrics] else []
            | none => [])
        ++ (if st.voiceEnabled then [.speak data.risposta] else [])
        ++ [.clearInput, .logAnalytics]
      ({ st with storicoDomande := newHist, domandaValue := "" },
       preEvents ++ postEvents)
    | .failure =>
      (st, preEvents ++ [.logError, .removeTyping, .hideStatus, .renderError erroreHtml])

/-! ### Voice capture activation (`attivaVoce`) -/

/-- The state touched by `attivaVoce`: the `isListening` flag and the
visibility of the `#voiceFeedback` element. -/
structure VoiceState where
  isListening : Bool
  voiceFeedbackHidden : Bool
deriving Repr, DecidableEq

/-- Observable side effects of one `attivaVoce` call. -/
inductive VoiceEv where
  | showNote (message : String) (type : String)
  | showFeedback
  | startRecognition
deriving Repr, DecidableEq

/-- `attivaVoce()`: capability check first (advisory and return when the
platform offers no SpeechRecognition), then the `isListening` guard
(silent no-op), else show feedback, set `isListening`, and start one
recognition session. -/
def attivaVoce (speechRecognitionAvailable : Bool) (st : VoiceState) :
    VoiceState × List VoiceEv :=
  if !speechRecognitionAvailable then
    (st, [.showNote "Il tuo browser non supporta il riconoscimento vocale" "error"])
  else if st.isListening then
    (st, [])
  else
    ({ st with isListening := true, voiceFeedbackHidden := false },
     [.showFeedback, .startRecognition])

/-! ### Helper lemmas about the matchers and scanners -/

theorem takeCount_spec (p : Char → Bool) (n : Nat) :
    ∀ (l t r : List Char), takeCount p n l = some (t, r) →
      l = t ++ r ∧ t.length = n ∧ ∀ c ∈ t, p c = true := by
  induction n with
  | zero =>
    intro l t r h
    simp only [takeCount, Option.some.injEq, Prod.mk.injEq] at h
    obtain ⟨ht, hr⟩ := h
    subst ht; subst hr; simp
  | succ n ih =>
    intro l t r h
    cases l with
    | nil => simp [takeCount] at h
    | cons c rest =>
      simp only [takeCount] at h
      by_cases hp : p c
      · rw [if_pos hp] at h
        cases h' : takeCount p n rest with
        | none => rw [h'] at h; simp at h
        | some pr =>
          rw [h'] at h
          simp only [Option.map_some', Option.some.injEq] at h
          obtain ⟨l1, l2⟩ := pr
          obtain ⟨hl, hlen, hall⟩ := ih rest l1 l2 h'
          subst hl
          dsimp only at h
          simp only [Prod.mk.injEq] at h
          obtain ⟨ht, hr⟩ := h
          subst ht; subst hr
          refine ⟨rfl, by simp [hlen], ?_⟩
          intro x hx
          rcases List.mem_cons.mp hx with hx | hx
          · subst hx; exact hp
          · exact hall x hx
      · rw [if_neg hp] at h; simp at h

theorem firstSome_mem {α β : Type} (f : α → Option β) :
    ∀ (xs : List α) (y : β), firstSome f xs = some y → ∃ x ∈ xs, f x = some y := by
  intro xs
  induction xs with
  | nil => intro y h; simp [firstSome] at h
  | cons x xs ih =>
    intro y h
    simp only [firstSome] at h
    cases hfx : f x with
    | some z =>
      rw [hfx] at h
      exact ⟨x, List.mem_cons_self x xs, by rw [hfx]; exact h⟩
    | none =>
      rw [hfx] at h
      obtain ⟨w, hw, hfw⟩ := ih y h
      exact ⟨w, List.mem_cons_of_mem x hw, hfw⟩

theorem matchPhoneCombo_spec (a s1 b s2 c : Nat) (l m r : List Char)
    (h : matchPhoneCombo a s1 b s2 c l = some (m, r)) :
    ∃ d1 w1 d2 w2 d3 : List Char,
      m = d1 ++ w1 ++ d2 ++ w2 ++ d3 ∧ l = m ++ r ∧
      d1.length = a ∧ w1.length = s1 ∧ d2.length = b ∧
      w2.length = s2 ∧ d3.length = c ∧
      (∀ x ∈ d1, x.isDigit) ∧ (∀ x ∈ w1, isJsWhitespace x) ∧
      (∀ x ∈ d2, x.isDigit) ∧ (∀ x ∈ w2, isJsWhitespace x) ∧
      (∀ x ∈ d3, x.isDigit) := by
  simp only [matchPhoneCombo, bind, Option.bind_eq_some, Option.pure_def,
    Option.some.injEq, Prod.mk.injEq] at h
  obtain ⟨⟨d1, l1⟩, h1, ⟨w1, l2⟩, h2, ⟨d2, l3⟩, h3, ⟨w2, l4⟩, h4, ⟨d3, l5⟩, h5, hm, hr⟩ := h
  dsimp only at h2 h3 h4 h5 hm hr
  obtain ⟨e1, n1, p1⟩ := takeCount_spec _ _ _ _ _ h1
  obtain ⟨e2, n2, p2⟩ := takeCount_spec _ _ _ _ _ h2
  obtain ⟨e3, n3, p3⟩ := takeCount_spec _ _ _ _ _ h3
  obtain ⟨e4, n4, p4⟩ := takeCount_spec _ _ _ _ _ h4
  obtain ⟨e5, n5, p5⟩ := takeCount_spec _ _ _ _ _ h5
  refine ⟨d1, w1, d2, w2, d3, hm.symm, ?_, n1, n2, n3, n4, n5, p1, p2, p3, p4, p5⟩
  rw [e1, e2, e3, e4, e5, ← hm, ← hr]
  simp [List.append_assoc]

/-- The shape actually highlighted by the phone pass: three groups of
3–4 digits separated by at most one whitespace character each (the
separators are optional, from the `\s?` in the source regex). -/
def phoneShapeOpt (m : List Char) : Prop :=
  ∃ d1 w1 d2 w2 d3 : List Char,
    m = d1 ++ w1 ++ d2 ++ w2 ++ d3 ∧
    (d1.length = 3 ∨ d1.length = 4) ∧ w1.length ≤ 1 ∧
    (d2.length = 3 ∨ d2.length = 4) ∧ w2.length ≤ 1 ∧
    (d3.length = 3 ∨ d3.length = 4) ∧
    (∀ x ∈ d1, x.isDigit) ∧ (∀ x ∈ w1, isJsWhitespace x) ∧
    (∀ x ∈ d2, x.isDigit) ∧ (∀ x ∈ w2, isJsWhitespace x) ∧
    (∀ x ∈ d3, x.isDigit)

theorem matchPhoneAt_sound (l m r : List Char)
    (h : matchPhoneAt l = some (m, r)) : phoneShapeOpt m ∧ l = m ++ r := by
  obtain ⟨⟨a, s1, b, s2, c⟩, hmem, hc⟩ := firstSome_mem _ phoneCombos _ h
  have hvals : ∀ t ∈ phoneCombos,
      (t.1 = 3 ∨ t.1 = 4) ∧ t.2.1 ≤ 1 ∧ (t.2.2.1 = 3 ∨ t.2.2.1 = 4) ∧
      t.2.2.2.1 ≤ 1 ∧ (t.2.2.2.2 = 3 ∨ t.2.2.2.2 = 4) := by decide
  obtain ⟨ha, hs1, hb, hs2, hc'⟩ := hvals _ hmem
  dsimp only at ha hs1 hb hs2 hc'
  obtain ⟨d1, w1, d2, w2, d3, hm, hlr, n1, n2, n3, n4, n5, p1, p2, p3, p4, p5⟩ :=
    matchPhoneCombo_spec a s1 b s2 c l m r hc
  exact ⟨⟨d1, w1, d2, w2, d3, hm, by omega, by omega, by omega, by omega, by omega,
    p1, p2, p3, p4, p5⟩, hlr⟩

theorem matchScheme_spec (l s r : List Char) (h : matchScheme l = some (s, r)) :
    l = s ++ r ∧ s ≠ [] := by
  unfold matchScheme at h
  split at h
  · simp only [Option.some.injEq, Prod.mk.injEq] at h
    obtain ⟨hs, hr⟩ := h
    subst hs; subst hr; simp
  · simp only [Option.some.injEq, Prod.mk.injEq] at h
    obtain ⟨hs, hr⟩ := h
    subst hs; subst hr; simp
  · exact absurd h (by simp)

theorem matchUrlAt_spec (l m r : List Char) (h : matchUrlAt l = some (m, r)) :
    l = m ++ r ∧ m ≠ [] := by
  unfold matchUrlAt at h
  split at h
  · exact absurd h (by simp)
  · rename_i scheme r0 hscheme
    split at h
    · exact absurd h (by simp)
    · rename_i b bs hbody
      simp only [Option.some.injEq, Prod.mk.injEq] at h
      obtain ⟨hm, hr⟩ := h
      obtain ⟨hl, hs⟩ := matchScheme_spec l scheme r0 hscheme
      constructor
      · rw [hl, ← hm, ← hr, List.append_assoc, ← hbody,
          List.takeWhile_append_dropWhile]
      · rw [← hm]; simp

/-- A replacement pass at a matching position: the whole match `m` is
consumed and replaced by `render m`, and scanning resumes at `r`. -/
theorem replScan_matched (matchAt : List Char → Option (List Char × List Char))
    (render : List Char → List Char) (l m r : List Char) (fuel : Nat)
    (hm : matchAt l = some (m, r)) (hne : l ≠ []) :
    replScan matchAt render (fuel + 1) l =
      render m ++ replScan matchAt render fuel r := by
  cases l with
  | nil => exact absurd rfl hne
  | cons c rest => simp [replScan, hm]

theorem head?_dropWhile_not (p : Char → Bool) :
    ∀ (l : List Char) (c : Char), (l.dropWhile p).head? = some c → p c = false := by
  intro l
  induction l with
  | nil => intro c h; simp [List.dropWhile] at h
  | cons a as ih =>
    intro c h
    by_cases hp : p a
    · rw [List.dropWhile_cons_of_pos hp] at h
      exact ih c h
    · rw [List.dropWhile_cons_of_neg hp] at h
      simp only [List.head?_cons, Option.some.injEq] at h
      subst h
      exact Bool.of_not_eq_true hp

theorem cleanUrl_getLast?_spec (url : List Char) (c : Char)
    (h : (cleanUrl url).getLast? = some c) : isTrailPunct c = false := by
  unfold cleanUrl at h
  rw [List.getLast?_reverse] at h
  exact head?_dropWhile_not _ _ _ h

/-! ### Helper lemmas about the bounded history -/

theorem historyPush_def (h : List Turn) (t : Turn) :
    historyPush h t = if h.length + 1 > 10 then (h ++ [t]).tail else h ++ [t] := by
  simp [historyPush]

theorem foldl_historyPush_spec (ts : List Turn) :
    ∀ acc : List Turn, acc.length ≤ 10 →
      (List.foldl historyPush acc ts).length = min (acc.length + ts.length) 10 ∧
      List.foldl historyPush acc ts =
        (acc ++ ts).drop (acc.length + ts.length - 10) := by
  induction ts with
  | nil =>
    intro acc hacc
    constructor
    · simp; omega
    · simp [show acc.length - 10 = 0 by omega]
  | cons t ts ih =>
    intro acc hacc
    rw [List.foldl_cons]
    by_cases hlen : acc.length + 1 > 10
    · -- the cap is hit: the oldest entry is shifted off
      have hacc10 : acc.length = 10 := by omega
      cases acc with
      | nil => simp at hacc10
      | cons a as =>
        have hpush : historyPush (a :: as) t = as ++ [t] := by
          rw [historyPush_def, if_pos (by simpa using hlen)]
          simp
        rw [hpush]
        have hlen' : (as ++ [t]).length ≤ 10 := by
          simp at hacc10 ⊢; omega
        obtain ⟨ihlen, iheq⟩ := ih (as ++ [t]) hlen'
        have hlen'' : (as ++ [t]).length = 10 := by
          simp at hacc10 ⊢; omega
        constructor
        · rw [ihlen, hlen'']
          simp at hacc10
          omega
        · rw [iheq, hlen'']
          have : (a :: as).length + (t :: ts).length - 10 =
              (10 + ts.length - 10) + 1 := by
            simp at hacc10 ⊢; omega
          rw [this]
          rw [show ((a :: as) ++ t :: ts) = a :: (as ++ t :: ts) by simp]
          rw [List.drop_succ_cons]
          congr 1
          simp [List.append_assoc]
    · -- still under the cap: plain append
      have hpush : historyPush acc t = acc ++ [t] := by
        rw [historyPush_def, if_neg hlen]
      rw [hpush]
      have hlen' : (acc ++ [t]).length ≤ 10 := by simp; omega
      obtain ⟨ihlen, iheq⟩ := ih (acc ++ [t]) hlen'
      constructor
      · rw [ihlen]; simp; omega
      · rw [iheq]
        rw [show ((acc ++ [t]) ++ ts) = acc ++ t :: ts by simp]
        congr 1
        simp
        omega

/-- The phone-group shape as the specification words it: 3–4 digits, a
space, 3–4 digits, a space, 3–4 digits — with the separating spaces
mandatory. Stated from the spec's words (not the source) to compare
with what the source's regex actually matches. -/
def specPhoneShapeStrict (m : List Char) : Bool :=
  [3, 4].any fun a => [3, 4].any fun b => [3, 4].any fun c =>
    match takeCount Char.isDigit a m with
    | none => false
    | some (_, r1) =>
      match r1 with
      | ' ' :: r2 =>
        match takeCount Char.isDigit b r2 with
        | none => false
        | some (_, r3) =>
          match r3 with
          | ' ' :: r4 =>
            match takeCount Char.isDigit c r4 with
            | some (_, []) => true
            | _ => false
          | _ => false
      | _ => false

/-! ### Claims about the Response Formatter -/

set_option maxRecDepth 20000

/-- Claim C3, counterexample: the ordering does NOT prevent the phone
regex from matching digits inside an already-emitted link target. On
input `"http://x.io/123456789"` the linkified href itself gets a phone
`<span>` injected into it by the later phone pass. -/
theorem claim_format_order_cex :
    occursSub ("href=\"http://x.io/<span").toList
      (formatResponse "http://x.io/123456789").toList = true ∧
    formatResponse "http://x.io/123456789" =
      "<a href=\"http://x.io/<span class=\"font-semibold text-blue-600\">123456789</span>\" target=\"_blank\" class=\"text-blue-600 underline hover:text-blue-700\">http://x.io/<span class=\"font-semibold text-blue-600\">123456789</span></a>" := by
  constructor
  · decide
  · decide

/-- Claim C3, amended: the four passes are applied in the fixed order
linkify, phone, time, keyword — but since linkify runs FIRST, the later
passes rescan its output: the time regex matches digits inside an
emitted link target, and the keyword pass inserts its glyph inside a
URL. -/
theorem claim_format_order_fixed_but_unprotected :
    (∀ s : String, formatResponse s =
      ⟨annotateCUPL (annotateProntoSoccorsoL
        (highlightTimesL (highlightPhonesL (linkifyL s.toList))))⟩) ∧
    occursSub ("t=<span class=\"font-semibold\">12:30</span>").toList
      (formatResponse "http://x.io/a?t=12:30").toList = true ∧
    occursSub ("href=\"http://x.io/📞 CUP\"").toList
      (formatResponse "Vedi http://x.io/CUP").toList = true := by
  refine ⟨fun s => rfl, by decide, by decide⟩

/-- Claim C6, counterexample: the appointment-desk acronym is NOT
annotated case-insensitively — the source uses `/CUP/g` without the `i`
flag, so lower-case `"cup"` passes through unannotated. -/
theorem claim_keyword_ci_cex :
    formatResponse "cup" = "cup" ∧
    occursSub ("📞").toList (formatResponse "cup").toList = false := by
  constructor
  · decide
  · decide

/-- Claim C6, amended: the emergency-department term is annotated
case-insensitively (`/pronto soccorso/gi`), but the appointment-desk
acronym only in its exact upper-case spelling (`/CUP/g`, no `i` flag);
lower-case `"cup"` is left unannotated. -/
theorem claim_keyword_annotation_mixed_case :
    formatResponse "pronto soccorso" = "🚨 Pronto Soccorso" ∧
    formatResponse "Pronto Soccorso" = "🚨 Pronto Soccorso" ∧
    formatResponse "PRONTO SOCCORSO" = "🚨 Pronto Soccorso" ∧
    formatResponse "CUP" = "📞 CUP" ∧
    formatResponse "cup" = "cup" := by
  refine ⟨by decide, by decide, by decide, by decide, by decide⟩

/-- Claim C7, counterexample: the ten-digit run `"0458071111"` is not of
the claimed shape (3–4 digits, a space, 3–4 digits, a space, 3–4
digits) yet IS highlighted — the source regex makes each separator
optional (`\s?`). -/
theorem claim_phone_shape_cex :
    specPhoneShapeStrict ("0458071111").toList = false ∧
    formatResponse "0458071111" =
      "<span class=\"font-semibold text-blue-600\">0458071111</span>" := by
  constructor
  · decide
  · decide

/-- Claim C7, amended: the formatter highlights phone-shaped digit
groups of the form 3–4 digits, OPTIONAL whitespace, 3–4 digits,
OPTIONAL whitespace, 3–4 digits; the spec's example is wrapped in the
emphasis span with the surrounding text unchanged, and every group the
phone matcher accepts is of that (relaxed) shape. -/
theorem claim_phone_highlighting :
    formatResponse "Chiama 045 807 1111" =
      "Chiama <span class=\"font-semibold text-blue-600\">045 807 1111</span>" ∧
    (∀ l m r : List Char,
      matchPhoneAt l = some (m, r) → phoneShapeOpt m ∧ l = m ++ r) := by
  exact ⟨by decide, matchPhoneAt_sound⟩

theorem claim_phone_highlighting_witness :
    phoneShapeOpt (("045 807 1111").toList) ∧
      ("045 807 1111").toList = ("045 807 1111").toList ++ [] :=
  claim_phone_highlighting.2 (("045 807 1111").toList)
    (("045 807 1111").toList) [] (by decide)

/-- Claim C8: linkification of `"Visita http://example.com/a,"` yields
an anchor whose target and visible text are `http://example.com/a`
(trailing comma excluded), and in general the cleaned URL used for both
never ends in one of the stripped punctuation characters `.,!?)`. -/
theorem claim_linkify_strip :
    linkify "Visita http://example.com/a," =
      "Visita <a href=\"http://example.com/a\" target=\"_blank\" class=\"text-blue-600 underline hover:text-blue-700\">http://example.com/a</a>" ∧
    (∀ (url : List Char) (c : Char),
      (cleanUrl url).getLast? = some c → isTrailPunct c = false) := by
  exact ⟨by decide, cleanUrl_getLast?_spec⟩

theorem claim_linkify_strip_witness : isTrailPunct 'a' = false :=
  claim_linkify_strip.2 (("http://e.com/a,!").toList) 'a' (by decide)

/-- Claim C10: a matched bare URL is replaced as a WHOLE — the match
includes the trailing punctuation, the replacement is the anchor of the
cleaned URL, and scanning resumes after the full match, so the stripped
punctuation is deleted from the output entirely (concretely: the comma
after `http://e.com/a` is gone from the output). -/
theorem claim_linkify_whole_match :
    linkify "Ecco http://e.com/a, ciao" =
      "Ecco <a href=\"http://e.com/a\" target=\"_blank\" class=\"text-blue-600 underline hover:text-blue-700\">http://e.com/a</a> ciao" ∧
    (∀ (l m r : List Char), matchUrlAt l = some (m, r) →
      l = m ++ r ∧
      ∀ fuel : Nat, replScan matchUrlAt renderAnchor (fuel + 1) l =
        renderAnchor m ++ replScan matchUrlAt renderAnchor fuel r) := by
  refine ⟨by decide, ?_⟩
  intro l m r h
  obtain ⟨hl, hm⟩ := matchUrlAt_spec l m r h
  refine ⟨hl, fun fuel => replScan_matched _ _ _ _ _ fuel h ?_⟩
  rw [hl]
  intro hcontra
  exact hm (List.append_eq_nil.mp hcontra).1

theorem claim_linkify_whole_match_witness :
    (("http://e.com/a, ciao").toList =
      ("http://e.com/a,").toList ++ (" ciao").toList) ∧
    replScan matchUrlAt renderAnchor 21 (("http://e.com/a, ciao").toList) =
      renderAnchor (("http://e.com/a,").toList) ++
        replScan matchUrlAt renderAnchor 20 ((" ciao").toList) :=
  ⟨(claim_linkify_whole_match.2 (("http://e.com/a, ciao").toList)
      (("http://e.com/a,").toList) ((" ciao").toList) (by decide)).1,
   (claim_linkify_whole_match.2 (("http://e.com/a, ciao").toList)
      (("http://e.com/a,").toList) ((" ciao").toList) (by decide)).2 20⟩

/-! ### Claims about the Turn Dispatcher and the Voice Mediator -/

/-- Recognizer for the network-request event. -/
def isNetworkRequestEv : Ev → Bool
  | .networkRequest _ _ _ => true
  | _ => false

/-- Recognizer for user-facing advisory/error renders (the error bubble
or a transient notification). -/
def isAdvisoryRenderEv : Ev → Bool
  | .renderError _ => true
  | .showNote _ _ => true
  | _ => false

/-- Recognizer for the assistant-message render. -/
def isRenderAIEv : Ev → Bool
  | .renderAI _ => true
  | _ => false

/-- Claim C1: on every successful turn the history update is exactly
`historyPush` (append, then shift the oldest once over the cap), and
for every sequence of successful submissions folded from the empty
history, the length is `min(submissions, 10)` and the surviving entries
are precisely the LAST 10 submitted turns (FIFO eviction). -/
theorem claim_history_cap_fifo :
    (∀ (st : ChatState) (now : String) (data : ReplyPayload),
      jsTrim st.domandaValue ≠ "" →
      (chiedi st now (.success data)).1.storicoDomande =
        historyPush st.storicoDomande
          ⟨jsTrim st.domandaValue, data.risposta, now⟩) ∧
    (∀ ts : List Turn,
      (List.foldl historyPush [] ts).length = min ts.length 10 ∧
      List.foldl historyPush [] ts = ts.drop (ts.length - 10)) := by
  constructor
  · intro st now data h
    simp only [chiedi, if_neg h]
  · intro ts
    have h := foldl_historyPush_spec ts [] (by simp)
    simpa using h

theorem claim_history_cap_fifo_witness :
    (chiedi ⟨[], "ciao", false, "s"⟩ "t"
        (.success ⟨"r", none, [], none, false⟩)).1.storicoDomande =
      historyPush [] ⟨jsTrim "ciao", "r", "t"⟩ :=
  claim_history_cap_fifo.1 ⟨[], "ciao", false, "s"⟩ "t"
    ⟨"r", none, [], none, false⟩ (by decide)

/-- Claim C2, counterexample: on the failure path the input field is
NOT cleared — the `catch` block of `chiedi` never touches
`domandaInput.value`, so the claim that the field is cleared on both
paths is false. -/
theorem claim_input_clear_cex :
    (chiedi ⟨[], "ciao", false, "s"⟩ "t" .failure).1.domandaValue = "ciao" ∧
    Ev.clearInput ∉ (chiedi ⟨[], "ciao", false, "s"⟩ "t" .failure).2 := by
  constructor
  · decide
  · decide

/-- Claim C2, amended: the input field is cleared only on the SUCCESS
path, after the reply has resolved and been rendered (never before the
assistant render); on the failure path the field keeps its text
unchanged. -/
theorem claim_input_cleared_only_on_success :
    ∀ (st : ChatState) (now : String) (data : ReplyPayload),
      jsTrim st.domandaValue ≠ "" →
      (chiedi st now (.success data)).1.domandaValue = "" ∧
      Ev.clearInput ∈ (chiedi st now (.success data)).2 ∧
      Ev.clearInput ∉
        ((chiedi st now (.success data)).2.takeWhile
          (fun e => !(isRenderAIEv e))) ∧
      (chiedi st now .failure).1.domandaValue = st.domandaValue ∧
      Ev.clearInput ∉ (chiedi st now .failure).2 := by
  intro st now data h
  refine ⟨?_, ?_, ?_, ?_, ?_⟩ <;>
    simp [chiedi, h, List.takeWhile_cons, isRenderAIEv]

theorem claim_input_cleared_only_on_success_witness :
    (chiedi ⟨[], "ciao", false, "s"⟩ "t"
        (.success ⟨"r", none, [], none, false⟩)).1.domandaValue = "" ∧
    Ev.clearInput ∈ (chiedi ⟨[], "ciao", false, "s"⟩ "t"
        (.success ⟨"r", none, [], none, false⟩)).2 ∧
    Ev.clearInput ∉
      ((chiedi ⟨[], "ciao", false, "s"⟩ "t"
          (.success ⟨"r", none, [], none, false⟩)).2.takeWhile
        (fun e => !(isRenderAIEv e))) ∧
    (chiedi ⟨[], "ciao", false, "s"⟩ "t" .failure).1.domandaValue = "ciao" ∧
    Ev.clearInput ∉ (chiedi ⟨[], "ciao", false, "s"⟩ "t" .failure).2 :=
  claim_input_cleared_only_on_success ⟨[], "ciao", false, "s"⟩ "t"
    ⟨"r", none, [], none, false⟩ (by decide)

/-- Claim C4: a failed network call (unreachable, non-2xx, or malformed
payload — all resolved as the same `catch`) leaves the whole state and
in particular the history unchanged, renders exactly one advisory/error
bubble whose fallback text contains the human-contact instruction,
issues exactly one network request (no retry), and a subsequent
successful submission appends to the history normally. -/
theorem claim_failure_atomic :
    ∀ (st : ChatState) (now now2 : String) (data : ReplyPayload),
      jsTrim st.domandaValue ≠ "" →
      (chiedi st now .failure).1 = st ∧
      ((chiedi st now .failure).2.filter isAdvisoryRenderEv) =
        [.renderError erroreHtml] ∧
      occursSub ("chiama il centralino: 045 807 1111").toList
        erroreHtml.toList = true ∧
      ((chiedi st now .failure).2.filter isNetworkRequestEv).length = 1 ∧
      (chiedi (chiedi st now .failure).1 now2 (.success data)).1.storicoDomande =
        historyPush st.storicoDomande
          ⟨jsTrim st.domandaValue, data.risposta, now2⟩ := by
  intro st now now2 data h
  refine ⟨?_, ?_, by decide, ?_, ?_⟩ <;>
    simp [chiedi, h, List.filter, isAdvisoryRenderEv, isNetworkRequestEv]

theorem claim_failure_atomic_witness :
    (chiedi ⟨[], "ciao", false, "s"⟩ "t" .failure).1 = ⟨[], "ciao", false, "s"⟩ ∧
    ((chiedi ⟨[], "ciao", false, "s"⟩ "t" .failure).2.filter isAdvisoryRenderEv) =
      [.renderError erroreHtml] ∧
    occursSub ("chiama il centralino: 045 807 1111").toList
      erroreHtml.toList = true ∧
    ((chiedi ⟨[], "ciao", false, "s"⟩ "t" .failure).2.filter
      isNetworkRequestEv).length = 1 ∧
    (chiedi (chiedi ⟨[], "ciao", false, "s"⟩ "t" .failure).1 "t2"
        (.success ⟨"r", none, [], none, false⟩)).1.storicoDomande =
      historyPush [] ⟨jsTrim "ciao", "r", "t2"⟩ :=
  claim_failure_atomic ⟨[], "ciao", false, "s"⟩ "t" "t2"
    ⟨"r", none, [], none, false⟩ (by decide)

/-- Claim C5: when the trimmed input is empty, `chiedi` emits exactly
one warning notification and returns — the state (history included) is
untouched and the event trace contains no network request. -/
theorem claim_empty_input_noop :
    ∀ (st : ChatState) (now : String) (o : NetOutcome),
      jsTrim st.domandaValue = "" →
      chiedi st now o =
        (st, [.showNote "Per favore, scrivi una domanda" "warning"]) := by
  intro st now o h
  simp only [chiedi, if_pos h]

theorem claim_empty_input_noop_witness :
    chiedi ⟨[], "   ", false, "s"⟩ "t" .failure =
      (⟨[], "   ", false, "s"⟩,
       [.showNote "Per favore, scrivi una domanda" "warning"]) :=
  claim_empty_input_noop ⟨[], "   ", false, "s"⟩ "t" .failure (by decide)

/-- Claim C9: at most one capture session is active — a call to
`attivaVoce` while `isListening` is true returns with no state change
and no events (no second capture session); and when the platform offers
no SpeechRecognition, the call emits only the advisory error
notification and changes no state. -/
theorem claim_voice_single_session :
    ∀ st : VoiceState,
      (st.isListening = true → attivaVoce true st = (st, [])) ∧
      attivaVoce false st =
        (st, [.showNote "Il tuo browser non supporta il riconoscimento vocale"
                "error"]) := by
  intro st
  constructor
  · intro h
    simp [attivaVoce, h]
  · simp [attivaVoce]

theorem claim_voice_single_session_witness :
    attivaVoce true ⟨true, true⟩ = (⟨true, true⟩, []) :=
  (claim_voice_single_session ⟨true, true⟩).1 rfl

end Chatbot
